import Mathlib

/-!
# Verification of the Wikipedia/Commons content-and-image extraction pipeline

Shallow embedding of `wiki_grabber.py`.  Pure string manipulation is modelled
on `List Char` (Python `str` semantics: `split`, `strip`, `replace`,
`urllib.parse.unquote`); HTML documents are modelled as already-parsed node
trees (`BeautifulSoup` is an external collaborator, so the parse step itself
is not modelled); network responses are modelled as explicit input data
(final URL after redirects, status code, parsed page shape); the filesystem
is modelled as a map from paths to file contents.
-/

namespace WikiGrabber

/-- Hex digit value, accepting both cases (as Python `unquote` does). -/
def hexVal (c : Char) : Option Nat :=
  if '0' ≤ c ∧ c ≤ '9' then some (c.toNat - '0'.toNat)
  else if 'a' ≤ c ∧ c ≤ 'f' then some (c.toNat - 'a'.toNat + 10)
  else if 'A' ≤ c ∧ c ≤ 'F' then some (c.toNat - 'A'.toNat + 10)
  else none

/-- Model of `urllib.parse.unquote` on a character list: a `%XY` escape with
two hex digits denoting a byte below `0x80` decodes to that ASCII character;
any other `%` is left untouched.  (Multi-byte UTF-8 escape sequences are
outside the modelled domain; the repository's claims never exercise them.) -/
def pyUnquoteList : List Char → List Char
  | '%' :: a :: b :: rest =>
    match hexVal a, hexVal b with
    | some ha, some hb =>
      if 16 * ha + hb < 128 then Char.ofNat (16 * ha + hb) :: pyUnquoteList rest
      else '%' :: pyUnquoteList (a :: b :: rest)
    | _, _ => '%' :: pyUnquoteList (a :: b :: rest)
  | c :: rest => c :: pyUnquoteList rest
  | [] => []

/-- If `s = pre ++ r`, return `some r`, else `none`. -/
def dropPre : List Char → List Char → Option (List Char)
  | [], s => some s
  | _ :: _, [] => none
  | p :: ps, c :: cs => if p = c then dropPre ps cs else none

/-- Split at the first occurrence of `sep`: `some (before, after)`, or `none`
when `sep` does not occur. -/
def splitOnFirst (sep : List Char) : List Char → Option (List Char × List Char)
  | [] => (dropPre sep []).map (fun r => ([], r))
  | c :: cs =>
    match dropPre sep (c :: cs) with
    | some r => some ([], r)
    | none => (splitOnFirst sep cs).map (fun p => (c :: p.1, p.2))

/-- Fuelled worker for `pySplit`. -/
def pySplitAux : Nat → List Char → List Char → List (List Char)
  | 0, _, s => [s]
  | fuel + 1, sep, s =>
    match splitOnFirst sep s with
    | none => [s]
    | some (a, b) => a :: pySplitAux fuel sep b

/-- Model of Python `str.split(sep)` for a non-empty separator: each
successful split consumes at least one character, so `s.length + 1` units of
fuel always suffice. -/
def pySplit (sep s : List Char) : List (List Char) :=
  pySplitAux (s.length + 1) sep s

/-- Model of Python's substring test `sub in s` (for non-empty `sub`). -/
def pyInStr (sub s : String) : Bool :=
  (splitOnFirst sub.toList s.toList).isSome

/-- Model of Python `s.startswith(pre)`. -/
def pyStartsWith (s pre : String) : Bool :=
  (dropPre pre.toList s.toList).isSome

/-- The whitespace characters stripped by Python `str.strip()` / matched by
`\s` (the ASCII ones; the claims never exercise exotic Unicode whitespace). -/
def pyWS (c : Char) : Bool :=
  c = ' ' ∨ c = '\t' ∨ c = '\n' ∨ c = '\r' ∨ c = Char.ofNat 11 ∨ c = Char.ofNat 12

/-- Model of Python `str.strip()`. -/
def pyStrip (s : String) : String :=
  ⟨(((s.toList.dropWhile pyWS).reverse.dropWhile pyWS).reverse)⟩

/-- Model of Python `str.replace(sub, repl)` (replaces every occurrence):
split on `sub` and rejoin with `repl`. -/
def pyReplace (s sub repl : String) : String :=
  ⟨List.intercalate repl.toList (pySplit sub.toList s.toList)⟩

/-! ## Title Resolver (`extract_wiki_title`, wiki_grabber.py lines 11-27) -/

/-- `extract_wiki_title`: if `'/wiki/'` occurs in the URL, take
`url.split('/wiki/')[1].split('#')[0].split('?')[0]`, percent-decode it and
replace underscores with spaces; otherwise return `None`.  The `.getD []`
fallbacks are unreachable: the splits always produce enough segments under
the guard. -/
def extract_wiki_title (url : String) : Option String :=
  if pyInStr "/wiki/" url then
    let t := ((pySplit "/wiki/".toList url.toList).get? 1).getD []
    let t := ((pySplit ['#'] t).get? 0).getD []
    let t := ((pySplit ['?'] t).get? 0).getD []
    some (pyReplace ⟨pyUnquoteList t⟩ "_" " ")
  else none

/-- Title Resolver as the spec's words state it (claim C8): "take the
substring after the marker, truncate at the first fragment (`#`) or query
(`?`) delimiter, percent-decode it, and replace underscores with spaces". -/
def specTitle (url : String) : Option String :=
  (splitOnFirst "/wiki/".toList url.toList).map fun p =>
    let t := p.2.takeWhile (fun c => !(c == '#' || c == '?'))
    pyReplace ⟨pyUnquoteList t⟩ "_" " "

/-- Title Resolver as amended: the substring after the marker is additionally
truncated at the next occurrence of the marker (Python's `split` yields the
segment between the first two occurrences). -/
def specTitleAmended (url : String) : Option String :=
  (splitOnFirst "/wiki/".toList url.toList).map fun p =>
    let seg := match splitOnFirst "/wiki/".toList p.2 with
      | none => p.2
      | some q => q.1
    let t := seg.takeWhile (fun c => !(c == '#' || c == '?'))
    pyReplace ⟨pyUnquoteList t⟩ "_" " "

/-! ## HTML document model

`BeautifulSoup` is an external collaborator: markup strings are modelled by
their already-parsed trees.  Only the attribute consulted by the code (the
multi-valued `class` attribute) is modelled. -/

mutual
/-- A parsed HTML node: an element with a tag name, its `class` list and its
children, or a text node. -/
inductive HNode where
  | elem (tag : String) (classes : List String) (children : HForest)
  | txt (s : String)
/-- A forest of sibling HTML nodes, in document order. -/
inductive HForest where
  | nil
  | cons (n : HNode) (f : HForest)
end

/-- Build a forest from a list of nodes. -/
def HForest.ofList : List HNode → HForest
  | [] => .nil
  | n :: ns => .cons n (HForest.ofList ns)

/-- Model of BeautifulSoup `get_text()` over a forest: concatenation of all
descendant text, in document order, with no separator (an element's text is
its children's text). -/
def getTextF : HForest → String
  | .nil => ""
  | .cons (.txt s) f => s ++ getTextF f
  | .cons (.elem _ _ ch) f => getTextF ch ++ getTextF f

/-- Class names whose elements `process_wiki_content` decomposes before
rendering (the selector `.mw-editsection, .reference, .mw-empty-elt,
.noprint, .mbox-image`; a CSS class selector matches an exact class token). -/
def removalClasses : List String :=
  ["mw-editsection", "reference", "mw-empty-elt", "noprint", "mbox-image"]

/-- Model of `unwanted.decompose()` over the whole tree: drop every element
carrying one of the removal classes, recursively. -/
def removeUnwantedF : HForest → HForest
  | .nil => .nil
  | .cons (.txt s) f => .cons (.txt s) (removeUnwantedF f)
  | .cons (.elem tag cls ch) f =>
    if cls.any (fun c => removalClasses.contains c) then removeUnwantedF f
    else .cons (.elem tag cls (removeUnwantedF ch)) (removeUnwantedF f)

/-- Model of BeautifulSoup `element.find(tag)` applied to the children of an
element: first descendant element with the given tag, in document order
(depth-first). -/
def findElemF (tag : String) : HForest → Option HNode
  | .nil => none
  | .cons (.txt _) f => findElemF tag f
  | .cons (.elem t cls ch) f =>
    if t = tag then some (.elem t cls ch)
    else match findElemF tag ch with
      | some m => some m
      | none => findElemF tag f

/-- The skip markers of the renderer's main loop. -/
def skipMarkers : List String := ["toc", "sidebar", "navbox", "vertical-navbox"]

/-- Model of the ancestor test in `process_wiki_content`: some ancestor has a
non-empty class list whose space-joined string has a skip marker as a
substring (`c in ' '.join(parent.get('class', ''))` is a substring test).
`anc` lists each ancestor's classes, innermost first. -/
def skipByAncestors (anc : List (List String)) : Bool :=
  anc.any fun cls =>
    !cls.isEmpty &&
      skipMarkers.any fun m => pyInStr m ⟨List.intercalate [' '] (cls.map String.toList)⟩

/-- Model of `re.sub(r'^\[\s*edit\s*\]', '', t)` on the character list: drop
one leading `[ edit ]` marker (with optional whitespace) if present. -/
def dropEditMarker (cs : List Char) : List Char :=
  match cs with
  | '[' :: rest =>
    match dropPre "edit".toList (rest.dropWhile pyWS) with
    | some r2 =>
      match r2.dropWhile pyWS with
      | ']' :: r3 => r3
      | _ => cs
    | none => cs
  | _ => cs

/-- The tag names passed to the renderer's `soup.find_all([...])`. -/
def blockTags : List String :=
  ["p", "h1", "h2", "h3", "h4", "h5", "h6", "ul", "ol", "table"]

/-- The `- ` lines a list element contributes: one per direct `li` child
(`element.find_all('li', recursive=False)` searches direct children only),
each holding the item's full `get_text().strip()`. -/
def listLines : HForest → String
  | .nil => ""
  | .cons (.elem "li" _ ch) f => "- " ++ pyStrip (getTextF ch) ++ "\n" ++ listLines f
  | .cons _ f => listLines f

/-- The text block one matched element contributes in the renderer's main
loop (`process_wiki_content`, lines 112-136). -/
def emitBlock (tag : String) (ch : HForest) : String :=
  if pyStartsWith tag "h" then
    let level := ((tag.toList.get? 1).map fun c => c.toNat - '0'.toNat).getD 0
    let headingText : String := ⟨dropEditMarker (pyStrip (getTextF ch)).toList⟩
    "\n" ++ ⟨List.replicate level '#'⟩ ++ " " ++ headingText ++ "\n\n"
  else if tag = "p" then
    let t := pyStrip (getTextF ch)
    if t = "" then "" else t ++ "\n\n"
  else if tag = "ul" ∨ tag = "ol" then
    listLines ch ++ "\n"
  else if tag = "table" then
    match findElemF "caption" ch with
    | some c =>
      "[Table: " ++ pyStrip (match c with | .elem _ _ cch => getTextF cch | .txt s => s) ++ "]\n\n"
    | none => "[Table content]\n\n"
  else ""

/-- The renderer's main loop as a preorder walk: `soup.find_all([...])`
returns every matching element (nested matches included) in document order,
and each match whose ancestors carry no skip marker contributes its block.
`anc` is the class-list stack of the current node's ancestors. -/
def renderF (anc : List (List String)) (forest : HForest) : String :=
  match forest with
  | .nil => ""
  | .cons (.txt _) f => renderF anc f
  | .cons (.elem tag cls ch) f =>
    (if blockTags.contains tag && !skipByAncestors anc then emitBlock tag ch else "")
      ++ renderF (cls :: anc) ch ++ renderF anc f
termination_by structural forest

/-! ## Content Tree and Content Renderer (`process_wiki_content`) -/

/-- The fields of the API `parse` object that `process_wiki_content` reads.
`text = none` models a missing `'text'` key, `text = some none` a `'text'`
object without the `'*'` key; `some (some m)` holds the parsed markup.
String-valued fields that may carry markup (`displaytitle`, `title`) are
modelled by their parsed trees; `categories` holds each entry's `'*'`
string, `externallinks` the link strings. -/
structure ApiData where
  text : Option (Option HForest)
  displaytitle : Option HForest
  title : Option HForest
  categories : Option (List String)
  externallinks : Option (List String)

/-- `process_wiki_content` (wiki_grabber.py lines 70-150).  Returns the
plain-text rendering and the secondary (raw-markup) output.  The dead
`section_dict` computation of lines 101-102 (its value is never read) is
omitted. -/
def process_wiki_content (api : Option ApiData) : String × Option HForest :=
  match api with
  | none => ("Failed to retrieve page content", none)
  | some a =>
    match a.text with
    | none => ("Failed to retrieve page content", none)
    | some none => ("Failed to retrieve page content", none)
    | some (some html) =>
      let soup := removeUnwantedF html
      let titleNodes := match a.displaytitle with
        | some t => t
        | none => match a.title with
          | some t => t
          | none => HForest.cons (HNode.txt "Untitled") HForest.nil
      let title := getTextF titleNodes
      let base := "# " ++ title ++ "\n\n" ++ renderF [] soup
      let withCats := match a.categories with
        | none => base
        | some cats =>
          base ++ "\n## Categories\n"
            ++ String.join (cats.map fun c => "- " ++ pyReplace c "Category:" "" ++ "\n")
      let withLinks := match a.externallinks with
        | none => withCats
        | some links =>
          withCats ++ "\n## External Links\n"
            ++ String.join (links.map fun l => "- " ++ l ++ "\n")
      (pyStrip withLinks, some html)

/-! ## Image Locator (`get_commons_category_images`, `get_commons_file_namespace`)

Network fetches are external collaborators: each fetch is modelled by the
already-parsed shape of the page it returned.  A candidate item (a gallery
box, a thumb container, or a search result) is modelled by the two
attributes the code reads: the thumbnail `img`'s `src` (absent when the
item has no `img` or the `img` has no `src`) and the linking `a`'s `href`
(absent when there is no link or it has no `href`). -/

/-- One candidate item in a scanned container. -/
structure RawItem where
  src : Option String
  href : Option String

/-- An Image Descriptor (`{'filename', 'thumbnail_url', 'file_page'}`). -/
structure ImageInfo where
  filename : String
  thumbnail_url : String
  file_page : String
deriving DecidableEq, Repr

/-- Descriptor built from one item (wiki_grabber.py lines 219-236 and the
identical blocks): protocol-relative `src` is prefixed with `https:`,
relative `href` with the site origin, and the filename is the decoded last
`/`-separated segment of the file-page address (`file_page.split('/')[-1]`;
the `.getD` fallback is unreachable since `pySplit` never returns `[]`). -/
def mkImageInfo (src href : String) : ImageInfo :=
  let thumb := if pyStartsWith src "http" then src else "https:" ++ src
  let fp := if pyStartsWith href "http" then href else "https://commons.wikimedia.org" ++ href
  let fn : List Char := ((pySplit ['/'] fp.toList).getLast?).getD []
  ⟨⟨pyUnquoteList fn⟩, thumb, fp⟩

/-- One container-scanning loop (`for li in ...` at lines 211-239, 243-270,
310-337, 342-369): stop when `count` reaches `max_images`; an item with both
attributes present appends a descriptor and increments `count`; any other
item is skipped.  Returns the grown list and the final count. -/
def processItems (maxImages : Nat) : List RawItem → Nat → List ImageInfo → List ImageInfo × Nat
  | [], count, acc => (acc, count)
  | it :: rest, count, acc =>
    if maxImages ≤ count then (acc, count)
    else match it.src, it.href with
      | some s, some h => processItems maxImages rest (count + 1) (acc ++ [mkImageInfo s h])
      | _, _ => processItems maxImages rest count acc

/-- Tier 1's fetched category page: the final URL after redirects, the HTTP
status, the items of the `ul.gallery` container (an absent gallery and an
empty one behave identically) and the `div.thumb` containers. -/
structure Tier1Page where
  finalUrl : String
  status : Nat
  galleryItems : List RawItem
  thumbItems : List RawItem

/-- Tier 2's fetched media-search page: HTTP status, the modern
`a.sdms-image-result` items, and the legacy `div.searchResultImage` items. -/
structure Tier2Page where
  status : Nat
  modernResults : List RawItem
  legacyResults : List RawItem

/-- `get_commons_file_namespace` (wiki_grabber.py lines 282-375).  `none`
models a transport exception (caught at lines 373-375, returning `[]`); a
non-200 status returns `[]`; otherwise the modern result items are scanned
and, only when that yields no images, the legacy items (the `count`
variable persists across both loops). -/
def get_commons_file_namespace (page : Option Tier2Page) (maxImages : Nat) : List ImageInfo :=
  match page with
  | none => []
  | some p =>
    if p.status ≠ 200 then []
    else
      let m := processItems maxImages p.modernResults 0 []
      if m.1 = [] then (processItems maxImages p.legacyResults m.2 m.1).1 else m.1

/-- The gallery-then-thumbnails extraction of Tier 1 (lines 205-270): scan
the gallery items, then, if fewer than `max_images` were found, continue
with the thumb containers. -/
def tier1Images (p : Tier1Page) (maxImages : Nat) : List ImageInfo :=
  let g := processItems maxImages p.galleryItems 0 []
  if g.2 < maxImages then (processItems maxImages p.thumbItems g.2 g.1).1 else g.1

/-- `get_commons_category_images` (wiki_grabber.py lines 174-280).  `none`
models a transport exception (caught at lines 278-280, returning `[]`).
A redirect to `Special:Search` falls through to Tier 2; then a non-200
status returns `[]`; then the extracted images are returned unless empty,
in which case Tier 2 is consulted. -/
def get_commons_category_images (page : Option Tier1Page) (tier2 : Option Tier2Page)
    (maxImages : Nat) : List ImageInfo :=
  match page with
  | none => []
  | some p =>
    if pyInStr "Special:Search" p.finalUrl then get_commons_file_namespace tier2 maxImages
    else if p.status ≠ 200 then []
    else
      let images := tier1Images p maxImages
      if images = [] then get_commons_file_namespace tier2 maxImages else images

/-! ## Thumbnail Upgrader (`find_larger_thumbnail`, wiki_grabber.py lines 377-421) -/

/-- An anchor element of the detail page: its visible text
(`link.get_text().strip()` is modelled post-strip) and its `href`
(`link.get('href', '')` defaults to the empty string). -/
structure Anchor where
  text : String
  href : String

/-- The fetched detail page: HTTP status, all anchor elements in document
order, and the `src` of the image inside `div.fullImageLink` (absent when
the div, its `img`, or the `src` attribute is missing, which all make the
fallback return `None`). -/
structure FilePage where
  status : Nat
  anchors : List Anchor
  fullImage : Option String

/-- Python's `{size:,}` thousands-separator formatting for the candidate
widths used here (all below 10^6). -/
def commaFmt (n : Nat) : String :=
  if n < 1000 then toString n
  else
    let r := n % 1000
    let pad := if r < 10 then "00" else if r < 100 then "0" else ""
    toString (n / 1000) ++ "," ++ pad ++ toString r

/-- Word characters for the regex `\b` boundary (the ASCII ones). -/
def isWordChar (c : Char) : Bool :=
  ('a' ≤ c ∧ c ≤ 'z') ∨ ('A' ≤ c ∧ c ≤ 'Z') ∨ ('0' ≤ c ∧ c ≤ '9') ∨ c = '_'

/-- The `.*pixel` tail of the pattern: some characters none of which is a
newline (`.` does not match `\n`), then the literal `pixel`. -/
def dotStarPixel (s : List Char) : Bool :=
  (dropPre "pixel".toList s).isSome ||
    match s with
    | [] => false
    | c :: cs => c ≠ '\n' && dotStarPixel cs

/-- Model of `re.search(rf'\b{size:,}\b.*pixel', text)`: at some position
preceded by a non-word character (or the start), the formatted size occurs,
followed by a non-word character (or the end), then `.*pixel` matches.
`prevIsWord` tracks whether the previous character is a word character. -/
def searchSizePixel (sizeStr : List Char) (prevIsWord : Bool) (s : List Char) : Bool :=
  (!prevIsWord &&
    (match dropPre sizeStr s with
     | some rest =>
       (match rest with
        | [] => true
        | c :: _ => !isWordChar c) && dotStarPixel rest
     | none => false)) ||
    match s with
    | [] => false
    | c :: cs => searchSizePixel sizeStr (isWordChar c) cs

/-- Whether one anchor matches the sized-candidate test of line 407: the
size pattern matches its text, its `href` is non-empty (Python truthiness)
and contains `/thumb/`. -/
def anchorMatches (size : Nat) (a : Anchor) : Bool :=
  searchSizePixel (commaFmt size).toList false a.text.toList
    && a.href ≠ "" && pyInStr "/thumb/" a.href

/-- Protocol normalization of a found address (lines 408 and 415). -/
def normalizeProto (s : String) : String :=
  if pyStartsWith s "http" then s else "https:" ++ s

/-- The inner anchor loop (lines 401-408): first matching anchor's
normalized address. -/
def findSizedAnchor (size : Nat) : List Anchor → Option String
  | [] => none
  | a :: rest =>
    if anchorMatches size a then some (normalizeProto a.href)
    else findSizedAnchor size rest

/-- The candidate widths of line 396, in the fixed descending order. -/
def candidateSizes : List Nat := [1600, 1200, 1000, 800, 600, 400, 300]

/-- The size loop (lines 396-408): skip sizes below `min_width`, return the
first sized match. -/
def scanSizes (minWidth : Nat) (anchors : List Anchor) : List Nat → Option String
  | [] => none
  | size :: rest =>
    if size < minWidth then scanSizes minWidth anchors rest
    else match findSizedAnchor size anchors with
      | some h => some h
      | none => scanSizes minWidth anchors rest

/-- `find_larger_thumbnail` (wiki_grabber.py lines 377-421).  `none` models
a transport exception (caught, returning `None`); non-200 returns `None`;
otherwise the sized scan, then the `fullImageLink` fallback. -/
def find_larger_thumbnail (page : Option FilePage) (minWidth : Nat) : Option String :=
  match page with
  | none => none
  | some p =>
    if p.status ≠ 200 then none
    else
      match scanSizes minWidth p.anchors candidateSizes with
      | some h => some h
      | none => p.fullImage.map normalizeProto

/-- Claim C9's hypothesis, as a checkable predicate: every candidate width
that is not skipped (i.e. is at least the minimum) matches no anchor — the
page's size-labelled anchors advertise only renditions narrower than the
requested minimum. -/
def noSizedCandidate (p : FilePage) (minWidth : Nat) : Bool :=
  candidateSizes.all fun size =>
    decide (size < minWidth) || (p.anchors.all fun a => !anchorMatches size a)

/-! ## Image Downloader (`download_thumbnail_images`, wiki_grabber.py lines 423-478)

Per-descriptor collaborator behaviour is part of the input: each descriptor
is paired with the outcome environment of its network and decode steps.
The filesystem is a map from paths to file contents (byte strings). -/

/-- The collaborator outcomes for one descriptor: the Thumbnail Upgrader's
result for its file page, whether the outer `try` raised before the status
check (e.g. a transport error in `requests.get`), the HTTP status of the
image fetch, the fetched bytes, and whether the inner `try` succeeded
(`PIL.Image.open` decoded the bytes and the file write completed). -/
structure ItemEnv where
  upgrade : Option String
  raised : Bool
  status : Nat
  content : String
  decodeOk : Bool

/-- `re.sub(r'[\\/*?:"<>|]', "_", filename)`: every filesystem-illegal
character becomes `_`. -/
def sanitizeFilename (s : String) : String :=
  ⟨s.toList.map fun c =>
    if c = '\\' ∨ c = '/' ∨ c = '*' ∨ c = '?' ∨ c = ':' ∨ c = '"' ∨ c = '<' ∨ c = '>' ∨ c = '|'
    then '_' else c⟩

/-- `os.path.join(folder, safe_filename)` for a relative filename. -/
def savePath (folder : String) (d : ImageInfo) : String :=
  folder ++ "/" ++ sanitizeFilename d.filename

/-- Whether one descriptor's processing reaches `saved_images.append`. -/
def itemSuccess (e : ItemEnv) : Bool :=
  !e.raised && e.status == 200 && e.decodeOk

/-- The filesystem: a map from paths to file contents. -/
def Fs : Type := String → Option String

/-- `download_thumbnail_images` (lines 423-478): for each descriptor choose
the upgraded address if present (else the original thumbnail — the choice
does not affect which path is written), fetch; an exception or a non-200
status skips the item; on 200 the filename is sanitized and, if the bytes
decode, the raw bytes are written at the destination path (overwriting any
existing file) and the path is appended.  Returns the saved paths and the
final filesystem. -/
def download_thumbnail_images (folder : String) :
    List (ImageInfo × ItemEnv) → Fs → List String × Fs
  | [], fs => ([], fs)
  | (d, e) :: rest, fs =>
    if e.raised then download_thumbnail_images folder rest fs
    else
      let imgUrl := match e.upgrade with
        | some u => u
        | none => d.thumbnail_url
      if e.status = 200 then
        if e.decodeOk then
          let p := savePath folder d
          let r := download_thumbnail_images folder rest
            (fun q => if q = p then some e.content else fs q)
          (p :: r.1, r.2)
        else download_thumbnail_images folder rest fs
      else download_thumbnail_images folder rest fs

/-- The last content written at path `p` by a run over `items`: the content
of the last successful descriptor whose destination is `p`, if any. -/
def lastContentAt (folder : String) (p : String) (items : List (ImageInfo × ItemEnv)) :
    Option String :=
  ((items.filter fun x => itemSuccess x.2 && savePath folder x.1 == p).getLast?).map
    fun x => x.2.content

/-! ## Concrete scenario inputs used by witnesses and counterexamples -/

/-- The end-to-end scenario content tree: display title `Gravity`, one
paragraph `Gravity is...`, one category `Category:Physics`, no
external-link list. -/
def gravityApi : ApiData :=
  { text := some (some (HForest.ofList
      [HNode.elem "p" [] (HForest.ofList [HNode.txt "Gravity is..."])]))
    displaytitle := some (HForest.ofList [HNode.txt "Gravity"])
    title := none
    categories := some ["Category:Physics"]
    externallinks := none }

/-- A content tree whose markup is one list with a nested sub-list inside
its single item: `<ul><li>A<ul><li>B</li></ul></li></ul>`. -/
def nestedListApi : ApiData :=
  { text := some (some (HForest.ofList
      [HNode.elem "ul" [] (HForest.ofList
        [HNode.elem "li" [] (HForest.ofList
          [HNode.txt "A",
           HNode.elem "ul" [] (HForest.ofList
             [HNode.elem "li" [] (HForest.ofList [HNode.txt "B"])])])])]))
    displaytitle := none
    title := none
    categories := none
    externallinks := none }

/-- A content tree whose `text.'*'` entry is present but holds the empty
markup string (which parses to the empty forest). -/
def emptyMarkupApi : ApiData :=
  { text := some (some HForest.nil)
    displaytitle := some (HForest.ofList [HNode.txt "T"])
    title := none
    categories := none
    externallinks := none }

/-- A detail page advertising only a 600px rendition, with a designated
full-image link present. -/
def smallRenditionPage : FilePage :=
  { status := 200
    anchors := [⟨"600 × 450 pixels", "//upload.wikimedia.org/thumb/a/600px-A.jpg"⟩]
    fullImage := some "//upload.wikimedia.org/a/A.jpg" }

/-- A Tier 1 category fetch answered with HTTP 404 (no redirect). -/
def notFoundTier1 : Tier1Page :=
  { finalUrl := "https://commons.wikimedia.org/wiki/Category:X"
    status := 404
    galleryItems := [⟨some "//up.wm.org/g.jpg", some "/wiki/File:G.jpg"⟩]
    thumbItems := [] }

/-- A Tier 1 category fetch redirected to a generic search result. -/
def redirectTier1 : Tier1Page :=
  { finalUrl := "https://commons.wikimedia.org/w/index.php?search=X&title=Special:Search"
    status := 200
    galleryItems := []
    thumbItems := [] }

/-- A Tier 1 category fetch with a 200 status and an empty gallery (zero
extractable image descriptors). -/
def emptyGalleryTier1 : Tier1Page :=
  { finalUrl := "https://commons.wikimedia.org/wiki/Category:X"
    status := 200
    galleryItems := [⟨none, some "/wiki/File:G.jpg"⟩]
    thumbItems := [] }

/-- A Tier 2 media-search fetch yielding one modern result. -/
def sampleTier2 : Tier2Page :=
  { status := 200
    modernResults := [⟨some "//up.wm.org/t.jpg", some "/wiki/File:A.jpg"⟩]
    legacyResults := [] }

/-- A collaborator environment in which every step of one descriptor's
download succeeds, fetching the given bytes. -/
def okEnv (c : String) : ItemEnv :=
  { upgrade := none, raised := false, status := 200, content := c, decodeOk := true }

/-- Two descriptors whose filenames sanitize to the same safe name
(`a:b.jpg` and `a?b.jpg` both become `a_b.jpg`), both succeeding. -/
def dupItems : List (ImageInfo × ItemEnv) :=
  [(⟨"a:b.jpg", "t1", "f1"⟩, okEnv "AAA"), (⟨"a?b.jpg", "t2", "f2"⟩, okEnv "BBB")]

/-- The empty filesystem. -/
def emptyFs : Fs := fun _ => none

/-! ## Helper lemmas -/

theorem str_append_empty (s : String) : s ++ "" = s := by
  cases s with
  | mk d => show String.mk (d ++ []) = String.mk d
            rw [List.append_nil]

theorem str_append_assoc (a b c : String) : a ++ b ++ c = a ++ (b ++ c) := by
  cases a with
  | mk x =>
    cases b with
    | mk y =>
      cases c with
      | mk z => show String.mk (x ++ y ++ z) = String.mk (x ++ (y ++ z))
                rw [List.append_assoc]

/-! ## Claims C2, C3, C5, C6 -/

/-- Counterexample to claim C2: for the scenario tree (display title
`Gravity`, one paragraph `Gravity is...`, categories
`["Category:Physics"]`, no external links), the renderer's plain-text
output is not the claimed string `"# Gravity\n\nGravity is...\n\n##
Categories\n- Physics"`. -/
theorem c2_counterexample :
    (process_wiki_content (some gravityApi)).1 ≠
      "# Gravity\n\nGravity is...\n\n## Categories\n- Physics" := by decide

/-- Claim C2 as amended: for the scenario tree, the renderer's trimmed
plain-text output is `"# Gravity\n\nGravity is...\n\n\n## Categories\n-
Physics"` — the paragraph's two trailing newlines are followed by the
category section's own leading newline, giving three newlines before `##
Categories`. -/
theorem c2_theorem :
    (process_wiki_content (some gravityApi)).1 =
      "# Gravity\n\nGravity is...\n\n\n## Categories\n- Physics" := by decide

/-- Counterexample to claim C3: for the markup
`<ul><li>A<ul><li>B</li></ul></li></ul>`, the renderer does not emit only
the outer list's direct item; the nested list is found again by the
traversal and rendered as an additional `- B` block (and the direct item's
text `AB` includes the nested item's text). -/
theorem c3_counterexample :
    (process_wiki_content (some nestedListApi)).1 = "# Untitled\n\n- AB\n\n- B" ∧
      (process_wiki_content (some nestedListApi)).1 ≠ "# Untitled\n\n- AB" := by decide

/-- Claim C3 as amended: for a list whose single item holds text `a`
followed by a nested list with item text `b`, the renderer emits the outer
list's direct item as a `- ` line whose text is the item's full text
(nested text included), and then the nested list — itself a match of the
block traversal — as a further `- ` block. -/
theorem c3_theorem (a b : String) :
    renderF []
      (HForest.cons (HNode.elem "ul" [] (HForest.cons
        (HNode.elem "li" [] (HForest.cons (HNode.txt a) (HForest.cons
          (HNode.elem "ul" [] (HForest.cons
            (HNode.elem "li" [] (HForest.cons (HNode.txt b) HForest.nil))
            HForest.nil))
          HForest.nil)))
        HForest.nil))
      HForest.nil)
      = ("- " ++ pyStrip (a ++ b) ++ "\n" ++ "\n") ++ ("- " ++ pyStrip b ++ "\n" ++ "\n") := by
  simp [renderF, emitBlock, listLines, getTextF, skipByAncestors, blockTags,
    pyStartsWith, dropPre, str_append_empty, str_append_assoc]

/-- Counterexample to claim C5: a content tree whose markup entry is
present but empty is not rendered as the failure placeholder — the output
is a title-only document and the secondary output is present. -/
theorem c5_counterexample :
    (process_wiki_content (some emptyMarkupApi)).1 ≠ "Failed to retrieve page content" ∧
      (process_wiki_content (some emptyMarkupApi)).2.isSome = true := by decide

/-- Claim C5 as amended: the renderer returns exactly the fixed placeholder
with no secondary output precisely when the markup is absent — no content
tree at all, no `text` entry, or no `*` entry inside it.  A present but
empty markup string is rendered normally. -/
theorem c5_theorem (a : Option ApiData) :
    process_wiki_content a = ("Failed to retrieve page content", none) ↔
      (a = none ∨ ∃ x, a = some x ∧ (x.text = none ∨ x.text = some none)) := by
  cases a with
  | none => simp [process_wiki_content]
  | some x =>
    cases hx : x.text with
    | none => simp [process_wiki_content, hx]
    | some o =>
      cases o with
      | none => simp [process_wiki_content, hx]
      | some html => simp [process_wiki_content, hx]

/-- Counterexample to claim C6: the URL
`https://en.wikipedia.org/wiki/` contains the path marker, yet the Title
Resolver returns the empty title, not a non-empty one. -/
theorem c6_counterexample :
    pyInStr "/wiki/" "https://en.wikipedia.org/wiki/" = true ∧
      extract_wiki_title "https://en.wikipedia.org/wiki/" = some "" := by decide

/-- Claim C6 as amended: the Title Resolver produces a title (which may be
empty, e.g. when nothing follows the marker) exactly when the URL contains
the path marker `/wiki/`; otherwise resolution fails with no title. -/
theorem c6_theorem (url : String) :
    (extract_wiki_title url).isSome = pyInStr "/wiki/" url := by
  unfold extract_wiki_title
  by_cases h : pyInStr "/wiki/" url <;> simp [h]

/-! ## Claims C1 and C7 -/

theorem processItems_length_eq_count (m : Nat) :
    ∀ (items : List RawItem) (count : Nat) (acc : List ImageInfo),
      acc.length = count →
      ((processItems m items count acc).1).length = (processItems m items count acc).2 := by
  intro items
  induction items with
  | nil => intro count acc h; simpa [processItems] using h
  | cons it rest ih =>
    intro count acc h
    by_cases hc : m ≤ count
    · simpa [processItems, hc] using h
    · cases hs : it.src with
      | none => simpa [processItems, hc, hs] using ih count acc h
      | some s =>
        cases hh : it.href with
        | none => simpa [processItems, hc, hs, hh] using ih count acc h
        | some hr =>
          have := ih (count + 1) (acc ++ [mkImageInfo s hr]) (by simp [h])
          simpa [processItems, hc, hs, hh] using this

theorem processItems_count_le (m : Nat) :
    ∀ (items : List RawItem) (count : Nat) (acc : List ImageInfo),
      count ≤ m → (processItems m items count acc).2 ≤ m := by
  intro items
  induction items with
  | nil => intro count acc h; simpa [processItems] using h
  | cons it rest ih =>
    intro count acc h
    by_cases hc : m ≤ count
    · simpa [processItems, hc] using h
    · cases hs : it.src with
      | none => simpa [processItems, hc, hs] using ih count acc h
      | some s =>
        cases hh : it.href with
        | none => simpa [processItems, hc, hs, hh] using ih count acc h
        | some hr =>
          have h1 := ih (count + 1) (acc ++ [mkImageInfo s hr]) (by omega)
          simpa [processItems, hc, hs, hh] using h1

theorem tier1Images_length_le (p : Tier1Page) (n : Nat) :
    (tier1Images p n).length ≤ n := by
  unfold tier1Images
  have hg0 := processItems_length_eq_count n p.galleryItems 0 [] rfl
  have hg1 := processItems_count_le n p.galleryItems 0 [] (Nat.zero_le n)
  by_cases h : (processItems n p.galleryItems 0 []).2 < n
  · have ht0 := processItems_length_eq_count n p.thumbItems
      (processItems n p.galleryItems 0 []).2 (processItems n p.galleryItems 0 []).1 hg0
    have ht1 := processItems_count_le n p.thumbItems
      (processItems n p.galleryItems 0 []).2 (processItems n p.galleryItems 0 []).1 (by omega)
    simp only [h, if_true]
    omega
  · simp only [h, if_false]
    omega

theorem file_namespace_length_le (t2 : Option Tier2Page) (n : Nat) :
    (get_commons_file_namespace t2 n).length ≤ n := by
  cases t2 with
  | none => simp [get_commons_file_namespace]
  | some p =>
    unfold get_commons_file_namespace
    by_cases hs : p.status ≠ 200
    · simp [hs]
    · have hm0 := processItems_length_eq_count n p.modernResults 0 [] rfl
      have hm1 := processItems_count_le n p.modernResults 0 [] (Nat.zero_le n)
      by_cases he : (processItems n p.modernResults 0 []).1 = []
      · have hz : (processItems n p.modernResults 0 []).2 = 0 := by
          rw [← hm0, he]
          rfl
        have hl0 := processItems_length_eq_count n p.legacyResults
          (processItems n p.modernResults 0 []).2 ([] : List ImageInfo) (by simp [hz])
        have hl1 := processItems_count_le n p.legacyResults
          (processItems n p.modernResults 0 []).2 ([] : List ImageInfo) (by omega)
        simp only [hs, if_false, he, if_true, ite_not]
        omega
      · simp only [hs, if_false, he, if_true, ite_not]
        omega

/-- Counterexample to claim C1: when the Tier 1 category fetch answers with
a non-2xx status (HTTP 404, no redirect), the Image Locator returns the
empty list even though Tier 2 would return a non-empty result — it does not
fall through to Tier 2. -/
theorem c1_counterexample :
    get_commons_category_images (some notFoundTier1) (some sampleTier2) 5 = [] ∧
      get_commons_file_namespace (some sampleTier2) 5 ≠ [] := by decide

/-- Claim C1 as amended: Tier 1 falls through to Tier 2 and returns its
results when the response was redirected to a generic search result, or
when it has a 200 status but zero image descriptors are extracted; a
non-200 status (after the redirect check) instead returns the empty list
without consulting Tier 2 (as does a transport exception). -/
theorem c1_theorem (p : Tier1Page) (t2 : Option Tier2Page) (n : Nat) :
    (pyInStr "Special:Search" p.finalUrl = true →
      get_commons_category_images (some p) t2 n = get_commons_file_namespace t2 n) ∧
    (pyInStr "Special:Search" p.finalUrl = false → p.status = 200 → tier1Images p n = [] →
      get_commons_category_images (some p) t2 n = get_commons_file_namespace t2 n) ∧
    (pyInStr "Special:Search" p.finalUrl = false → p.status ≠ 200 →
      get_commons_category_images (some p) t2 n = []) := by
  refine ⟨fun hr => ?_, fun hr hs he => ?_, fun hr hs => ?_⟩
  · simp [get_commons_category_images, hr]
  · simp [get_commons_category_images, hr, hs, he]
  · simp [get_commons_category_images, hr, hs]

/-- Witness for C1's amended theorem at concrete inputs: a redirected
fetch and an empty-gallery fetch both return Tier 2's results, and a 404
fetch returns the empty list. -/
theorem c1_witness :
    (get_commons_category_images (some redirectTier1) (some sampleTier2) 5 =
      get_commons_file_namespace (some sampleTier2) 5) ∧
    (get_commons_category_images (some emptyGalleryTier1) (some sampleTier2) 5 =
      get_commons_file_namespace (some sampleTier2) 5) ∧
    get_commons_category_images (some notFoundTier1) (some sampleTier2) 5 = [] :=
  ⟨(c1_theorem redirectTier1 (some sampleTier2) 5).1 (by decide),
   (c1_theorem emptyGalleryTier1 (some sampleTier2) 5).2.1 (by decide) (by decide) (by decide),
   (c1_theorem notFoundTier1 (some sampleTier2) 5).2.2 (by decide) (by decide)⟩

/-- Claim C7: for every fetched page shape and every maximum count, the
Image Locator (Tier 1 falling back to Tier 2) returns at most that many
Image Descriptors, regardless of how many candidates the markup holds. -/
theorem c7_theorem (p : Option Tier1Page) (t2 : Option Tier2Page) (n : Nat) :
    (get_commons_category_images p t2 n).length ≤ n := by
  cases p with
  | none => simp [get_commons_category_images]
  | some p1 =>
    unfold get_commons_category_images
    by_cases hr : pyInStr "Special:Search" p1.finalUrl
    · simpa [hr] using file_namespace_length_le t2 n
    · by_cases hs : p1.status ≠ 200
      · simp [hr, hs]
      · by_cases he : tier1Images p1 n = []
        · simpa [hr, hs, he] using file_namespace_length_le t2 n
        · simpa [hr, hs, he] using tier1Images_length_le p1 n

/-! ## Claim C9 -/

theorem findSizedAnchor_none (size : Nat) :
    ∀ anchors : List Anchor, (anchors.all fun a => !anchorMatches size a) = true →
      findSizedAnchor size anchors = none := by
  intro anchors
  induction anchors with
  | nil => intro _; rfl
  | cons a rest ih =>
    intro h
    have h1 := List.all_eq_true.mp h a (by simp)
    have h2 : (rest.all fun a => !anchorMatches size a) = true := by
      refine List.all_eq_true.mpr fun x hx => ?_
      exact List.all_eq_true.mp h x (by simp [hx])
    simp only [findSizedAnchor]
    rw [if_neg (by simpa using h1)]
    exact ih h2

theorem scanSizes_none (minW : Nat) (anchors : List Anchor) :
    ∀ sizes : List Nat, (∀ s ∈ sizes, s < minW ∨ findSizedAnchor s anchors = none) →
      scanSizes minW anchors sizes = none := by
  intro sizes
  induction sizes with
  | nil => intro _; rfl
  | cons s rest ih =>
    intro h
    have hrest : ∀ x ∈ rest, x < minW ∨ findSizedAnchor x anchors = none :=
      fun x hx => h x (by simp [hx])
    rcases h s (by simp) with hlt | hnone
    · simp only [scanSizes, if_pos hlt]
      exact ih hrest
    · by_cases hlt : s < minW
      · simp only [scanSizes, if_pos hlt]
        exact ih hrest
      · simp only [scanSizes, if_neg hlt, hnone]
        exact ih hrest

/-- Counterexample to claim C9: a detail page advertising only a 600px
rendition (minimum 800) matches no sized candidate, yet the Thumbnail
Upgrader does not leave the caller with the original thumbnail — it
returns the designated full-image link's address. -/
theorem c9_counterexample :
    noSizedCandidate smallRenditionPage 800 = true ∧
      find_larger_thumbnail (some smallRenditionPage) 800 ≠ none ∧
      find_larger_thumbnail (some smallRenditionPage) 800 =
        some "https://upload.wikimedia.org/a/A.jpg" := by decide

/-- Claim C9 as amended: when every candidate width at least the requested
minimum matches no anchor of the (successfully fetched) detail page, the
sized scan yields nothing and the Thumbnail Upgrader answers with the
page's designated full-image address (normalized) when present, and with
no result — leaving the caller to the original thumbnail — only when that
link is also absent. -/
theorem c9_theorem (p : FilePage) (minW : Nat)
    (h1 : noSizedCandidate p minW = true) (h2 : p.status = 200) :
    find_larger_thumbnail (some p) minW = p.fullImage.map normalizeProto := by
  have hscan : scanSizes minW p.anchors candidateSizes = none := by
    refine scanSizes_none minW p.anchors candidateSizes fun s hs => ?_
    have := List.all_eq_true.mp h1 s hs
    by_cases hlt : s < minW
    · exact Or.inl hlt
    · refine Or.inr (findSizedAnchor_none s p.anchors ?_)
      simpa [hlt] using this
  simp [find_larger_thumbnail, h2, hscan]

/-- Witness for C9's amended theorem at the concrete small-rendition page:
no sized candidate matches, and the result is the normalized full-image
address. -/
theorem c9_witness :
    find_larger_thumbnail (some smallRenditionPage) 800 =
      smallRenditionPage.fullImage.map normalizeProto :=
  c9_theorem smallRenditionPage 800 (by decide) (by decide)

/-! ## Claims C4 and C10 -/

theorem download_fst (folder : String) :
    ∀ (items : List (ImageInfo × ItemEnv)) (fs : Fs),
      (download_thumbnail_images folder items fs).1 =
        (items.filter fun x => itemSuccess x.2).map fun x => savePath folder x.1 := by
  intro items
  induction items with
  | nil => intro fs; rfl
  | cons x rest ih =>
    intro fs
    obtain ⟨d, e⟩ := x
    by_cases hr : e.raised
    · simp [download_thumbnail_images, hr, itemSuccess, ih]
    · by_cases hs : e.status = 200
      · by_cases hd : e.decodeOk
        · simp [download_thumbnail_images, hr, hs, hd, itemSuccess, ih]
        · simp [download_thumbnail_images, hr, hs, hd, itemSuccess, ih]
      · simp [download_thumbnail_images, hr, hs, itemSuccess, ih]

theorem download_skip (folder : String) (d : ImageInfo) (e : ItemEnv)
    (rest : List (ImageInfo × ItemEnv)) (fs : Fs) (hfail : itemSuccess e = false) :
    download_thumbnail_images folder ((d, e) :: rest) fs =
      download_thumbnail_images folder rest fs := by
  by_cases hr : e.raised
  · simp [download_thumbnail_images, hr]
  · by_cases hs : e.status = 200
    · have hd : e.decodeOk = false := by
        simpa [itemSuccess, hr, hs] using hfail
      simp [download_thumbnail_images, hr, hs, hd]
    · simp [download_thumbnail_images, hr, hs]

theorem download_write (folder : String) (d : ImageInfo) (e : ItemEnv)
    (rest : List (ImageInfo × ItemEnv)) (fs : Fs) (hok : itemSuccess e = true) :
    download_thumbnail_images folder ((d, e) :: rest) fs =
      ((savePath folder d) ::
          (download_thumbnail_images folder rest
            (fun q => if q = savePath folder d then some e.content else fs q)).1,
        (download_thumbnail_images folder rest
          (fun q => if q = savePath folder d then some e.content else fs q)).2) := by
  have hr : e.raised = false := by
    rcases Bool.and_eq_true_iff.mp (Bool.and_eq_true_iff.mp hok).1 with ⟨h1, _⟩
    simpa using h1
  have hs : e.status = 200 := by
    rcases Bool.and_eq_true_iff.mp (Bool.and_eq_true_iff.mp hok).1 with ⟨_, h2⟩
    simpa using h2
  have hd : e.decodeOk = true := (Bool.and_eq_true_iff.mp hok).2
  simp [download_thumbnail_images, hr, hs, hd]

theorem download_snd_at (folder p : String) :
    ∀ (items : List (ImageInfo × ItemEnv)) (fs : Fs),
      (download_thumbnail_images folder items fs).2 p =
        match lastContentAt folder p items with
        | some c => some c
        | none => fs p := by
  intro items
  induction items with
  | nil => intro fs; rfl
  | cons x rest ih =>
    intro fs
    obtain ⟨d, e⟩ := x
    by_cases hsucc : itemSuccess e = true
    · rw [download_write folder d e rest fs hsucc]
      by_cases hp : savePath folder d = p
      · have hpred : (itemSuccess e && (savePath folder d == p)) = true := by
          simp [hsucc, hp]
        cases hlast :
            ((rest.filter fun x => itemSuccess x.2 && (savePath folder x.1 == p)).getLast?) with
        | none =>
          simp [ih, lastContentAt, List.filter_cons, hsucc, hpred, List.getLast?_cons, hlast,
            hp]
        | some y =>
          simp [ih, lastContentAt, List.filter_cons, hsucc, hpred, List.getLast?_cons, hlast,
            hp]
      · have hpred : (itemSuccess e && (savePath folder d == p)) = false := by
          simp [hp]
        cases hlast :
            ((rest.filter fun x => itemSuccess x.2 && (savePath folder x.1 == p)).getLast?) with
        | none =>
          have hne : p ≠ savePath folder d := fun h => hp h.symm
          simp [ih, lastContentAt, List.filter_cons, hsucc, hpred, hlast, hne, hp]
        | some y =>
          simp [ih, lastContentAt, List.filter_cons, hsucc, hpred, hlast, hp]
    · have hfail : itemSuccess e = false := by simpa using hsucc
      rw [download_skip folder d e rest fs hfail, ih]
      have hpred : (itemSuccess e && (savePath folder d == p)) = false := by
        simp [hfail]
      simp [lastContentAt, List.filter_cons, hpred]

/-- Claim C4: no single descriptor's failure (a raised transport
exception, a non-200 status, or undecodable bytes) ever aborts the batch —
the Image Downloader's returned list is exactly the destination path of
every successfully processed descriptor, in order, whatever failures occur
in between. -/
theorem c4_theorem (folder : String) (items : List (ImageInfo × ItemEnv)) (fs : Fs) :
    (download_thumbnail_images folder items fs).1 =
      (items.filter fun x => itemSuccess x.2).map fun x => savePath folder x.1 :=
  download_fst folder items fs

/-- Claim C10: when exactly two descriptors of the batch sanitize to the
same safe filename and both succeed (and no other successful descriptor
shares that destination), the later descriptor's bytes are what the shared
destination file finally holds, and the returned path list holds that path
twice — sanitized filenames are never uniquified. -/
theorem c10_theorem (folder : String) (fs : Fs)
    (l1 l2 l3 : List (ImageInfo × ItemEnv)) (d1 d2 : ImageInfo) (e1 e2 : ItemEnv)
    (h1 : itemSuccess e1 = true) (h2 : itemSuccess e2 = true)
    (hsan : sanitizeFilename d1.filename = sanitizeFilename d2.filename)
    (hothers : ∀ x ∈ l1 ++ l2 ++ l3, itemSuccess x.2 = true →
      savePath folder x.1 ≠ savePath folder d1) :
    ((download_thumbnail_images folder (l1 ++ (d1, e1) :: l2 ++ (d2, e2) :: l3) fs).1.count
        (savePath folder d1) = 2) ∧
      (download_thumbnail_images folder (l1 ++ (d1, e1) :: l2 ++ (d2, e2) :: l3) fs).2
        (savePath folder d1) = some e2.content := by
  have hp2 : savePath folder d2 = savePath folder d1 := by
    simp [savePath, hsan]
  have hl1 : ∀ x ∈ l1, itemSuccess x.2 = true → savePath folder x.1 ≠ savePath folder d1 :=
    fun x hx => hothers x (by simp [hx])
  have hl2 : ∀ x ∈ l2, itemSuccess x.2 = true → savePath folder x.1 ≠ savePath folder d1 :=
    fun x hx => hothers x (by simp [hx])
  have hl3 : ∀ x ∈ l3, itemSuccess x.2 = true → savePath folder x.1 ≠ savePath folder d1 :=
    fun x hx => hothers x (by simp [hx])
  constructor
  · rw [download_fst, List.count_eq_countP, List.countP_map, List.countP_filter]
    have hzero : ∀ l : List (ImageInfo × ItemEnv),
        (∀ x ∈ l, itemSuccess x.2 = true → savePath folder x.1 ≠ savePath folder d1) →
        (l.countP fun x =>
          ((savePath folder x.1 == savePath folder d1) && itemSuccess x.2)) = 0 := by
      intro l hl
      refine List.countP_eq_zero.mpr fun x hx hbad => ?_
      rcases Bool.and_eq_true_iff.mp hbad with ⟨hb1, hb2⟩
      exact hl x hx hb2 (by simpa using hb1)
    simp only [Function.comp]
    rw [List.countP_append, List.countP_cons, List.countP_append, List.countP_cons,
      hzero l1 hl1, hzero l2 hl2, hzero l3 hl3]
    simp [h1, h2, hp2]
  · rw [download_snd_at]
    have hnil : ∀ l : List (ImageInfo × ItemEnv),
        (∀ x ∈ l, itemSuccess x.2 = true → savePath folder x.1 ≠ savePath folder d1) →
        (l.filter fun x =>
          (itemSuccess x.2 && (savePath folder x.1 == savePath folder d1))) = [] := by
      intro l hl
      refine List.filter_eq_nil_iff.mpr fun x hx hbad => ?_
      rcases Bool.and_eq_true_iff.mp hbad with ⟨hb1, hb2⟩
      exact hl x hx hb1 (by simpa using hb2)
    have hfilter : lastContentAt folder (savePath folder d1)
        (l1 ++ (d1, e1) :: l2 ++ (d2, e2) :: l3) = some e2.content := by
      unfold lastContentAt
      rw [List.filter_append, List.filter_append, hnil l1 hl1,
        List.filter_cons_of_pos (by simp [h1]),
        hnil l2 hl2,
        List.filter_cons_of_pos (by simp [h2, hp2]),
        hnil l3 hl3]
      simp
    rw [hfilter]

/-- Witness for C10 at concrete inputs: `a:b.jpg` and `a?b.jpg` both
sanitize to `a_b.jpg`; downloading both into `wiki_images` saves the same
path twice and leaves the second descriptor's bytes in the file. -/
theorem c10_witness :
    ((download_thumbnail_images "wiki_images"
        ([] ++ ((⟨"a:b.jpg", "t1", "f1"⟩ : ImageInfo), okEnv "AAA") ::
          [] ++ ((⟨"a?b.jpg", "t2", "f2"⟩ : ImageInfo), okEnv "BBB") :: []) emptyFs).1.count
        (savePath "wiki_images" (⟨"a:b.jpg", "t1", "f1"⟩ : ImageInfo)) = 2) ∧
      (download_thumbnail_images "wiki_images"
        ([] ++ ((⟨"a:b.jpg", "t1", "f1"⟩ : ImageInfo), okEnv "AAA") ::
          [] ++ ((⟨"a?b.jpg", "t2", "f2"⟩ : ImageInfo), okEnv "BBB") :: []) emptyFs).2
        (savePath "wiki_images" (⟨"a:b.jpg", "t1", "f1"⟩ : ImageInfo)) =
        some (okEnv "BBB").content :=
  c10_theorem "wiki_images" emptyFs [] [] []
    ⟨"a:b.jpg", "t1", "f1"⟩ ⟨"a?b.jpg", "t2", "f2"⟩ (okEnv "AAA") (okEnv "BBB")
    (by decide) (by decide) (by decide) (by simp)

/-! ## Claim C8 -/

theorem dropPre_length :
    ∀ (pre s r : List Char), dropPre pre s = some r → r.length + pre.length = s.length := by
  intro pre
  induction pre with
  | nil =>
    intro s r h
    simp [dropPre] at h
    simp [h]
  | cons p ps ih =>
    intro s r h
    cases s with
    | nil => simp [dropPre] at h
    | cons c cs =>
      by_cases hpc : p = c
      · simp only [dropPre, hpc, if_true] at h
        have := ih cs r h
        simp only [List.length_cons]
        omega
      · simp [dropPre, hpc] at h

theorem splitOnFirst_some_len (sep : List Char) (hsep : sep ≠ []) :
    ∀ (s : List Char) (q : List Char × List Char),
      splitOnFirst sep s = some q → q.2.length < s.length := by
  intro s
  induction s with
  | nil =>
    intro q h
    cases sep with
    | nil => exact absurd rfl hsep
    | cons p ps => simp [splitOnFirst, dropPre] at h
  | cons c cs ih =>
    intro q h
    cases hd : dropPre sep (c :: cs) with
    | some r =>
      simp only [splitOnFirst, hd] at h
      cases h
      have hlen := dropPre_length sep (c :: cs) r hd
      have : 1 ≤ sep.length := by
        cases sep with
        | nil => exact absurd rfl hsep
        | cons _ _ => simp
      simp only [List.length_cons] at hlen ⊢
      omega
    | none =>
      simp only [splitOnFirst, hd] at h
      cases hrec : splitOnFirst sep cs with
      | none => simp [hrec] at h
      | some q' =>
        simp only [hrec, Option.map_some] at h
        cases h
        have := ih q' hrec
        simp only [List.length_cons]
        omega

theorem pySplitAux_get0 (m : Nat) (sep t : List Char) :
    (pySplitAux (m + 1) sep t).get? 0 =
      some (match splitOnFirst sep t with | none => t | some q => q.1) := by
  cases h : splitOnFirst sep t with
  | none => simp [pySplitAux, h]
  | some q => simp [pySplitAux, h]

theorem pySplit_get0 (sep t : List Char) :
    ((pySplit sep t).get? 0).getD [] =
      (match splitOnFirst sep t with | none => t | some q => q.1) := by
  rw [pySplit, pySplitAux_get0]
  rfl

theorem pySplit_get1 (sep u : List Char) (hsep : sep ≠ []) (a b : List Char)
    (h : splitOnFirst sep u = some (a, b)) :
    ((pySplit sep u).get? 1).getD [] =
      (match splitOnFirst sep b with | none => b | some q => q.1) := by
  have hlen : b.length < u.length := splitOnFirst_some_len sep hsep u (a, b) h
  obtain ⟨k, hk⟩ : ∃ k, u.length = k + 1 := ⟨u.length - 1, by omega⟩
  rw [pySplit, hk]
  simp only [pySplitAux, h]
  rw [show (1 : Nat) = 0 + 1 from rfl, List.get?_cons_succ]
  cases hb : splitOnFirst sep b with
  | none => simp [hb]
  | some q => simp [hb]

theorem splitOnFirst_cons (sep : List Char) (c : Char) (cs : List Char) :
    splitOnFirst sep (c :: cs) =
      match dropPre sep (c :: cs) with
      | some r => some ([], r)
      | none => (splitOnFirst sep cs).map fun p => (c :: p.1, p.2) := rfl

theorem splitOnFirst_single (c : Char) :
    ∀ t : List Char,
      (match splitOnFirst [c] t with | none => t | some q => q.1) =
        t.takeWhile (fun x => x != c) := by
  intro t
  induction t with
  | nil => rfl
  | cons c' cs ih =>
    by_cases hc : c = c'
    · have hd : dropPre [c] (c' :: cs) = some cs := by
        simp [dropPre, hc]
      rw [splitOnFirst_cons, hd]
      have : (c' != c) = false := by
        simp [bne, hc]
      simp [List.takeWhile_cons, this]
    · have hd : dropPre [c] (c' :: cs) = none := by
        simp [dropPre, hc]
      have hbne : (c' != c) = true := by
        simp only [bne_iff_ne, ne_eq]
        exact fun hx => hc hx.symm
      rw [splitOnFirst_cons, hd]
      cases hrec : splitOnFirst [c] cs with
      | none =>
        simp only [hrec] at ih
        simp only [hrec, Option.map]
        rw [List.takeWhile_cons]
        simp only [hbne, if_true]
        exact congrArg (List.cons c') ih
      | some q' =>
        simp only [hrec] at ih
        simp only [hrec, Option.map]
        rw [List.takeWhile_cons]
        simp only [hbne, if_true]
        exact congrArg (List.cons c') ih

theorem takeWhile_and (p q : Char → Bool) :
    ∀ t : List Char, (t.takeWhile p).takeWhile q = t.takeWhile fun x => p x && q x := by
  intro t
  induction t with
  | nil => rfl
  | cons c cs ih =>
    by_cases hp : p c
    · by_cases hq : q c
      · simp [List.takeWhile_cons, hp, hq, ih]
      · simp [List.takeWhile_cons, hp, hq]
    · simp [List.takeWhile_cons, hp]

/-- Counterexample to claim C8: for a URL holding the marker twice, the
Title Resolver does not return the (decoded, underscore-normalized)
substring after the marker — Python's `split` cuts the segment at the next
marker occurrence as well. -/
theorem c8_counterexample :
    extract_wiki_title "https://x.org/wiki/A/wiki/B" = some "A" ∧
      specTitle "https://x.org/wiki/A/wiki/B" = some "A/wiki/B" ∧
      ("A" : String) ≠ "A/wiki/B" := by decide

/-- Claim C8 as amended: for every URL containing the path marker, the
Title Resolver returns the substring after the first marker — additionally
truncated at the next occurrence of the marker — truncated at the first
`#` or `?` delimiter, percent-decoded, with underscores replaced by
spaces; for every URL lacking the marker, it reports failure. -/
theorem c8_theorem (url : String) : extract_wiki_title url = specTitleAmended url := by
  unfold extract_wiki_title specTitleAmended pyInStr
  cases h : splitOnFirst "/wiki/".toList url.toList with
  | none => simp [h]
  | some q =>
    obtain ⟨a, b⟩ := q
    have h1 : ((pySplit "/wiki/".toList url.toList).get? 1).getD [] =
        (match splitOnFirst "/wiki/".toList b with | none => b | some q => q.1) :=
      pySplit_get1 "/wiki/".toList url.toList (by decide) a b h
    have h2 : ∀ t : List Char, ((pySplit ['#'] t).get? 0).getD [] =
        t.takeWhile (fun x => x != '#') := by
      intro t
      rw [pySplit_get0]
      exact splitOnFirst_single '#' t
    have h3 : ∀ t : List Char, ((pySplit ['?'] t).get? 0).getD [] =
        t.takeWhile (fun x => x != '?') := by
      intro t
      rw [pySplit_get0]
      exact splitOnFirst_single '?' t
    have h4 : ∀ t : List Char, (t.takeWhile (fun x => x != '#')).takeWhile (fun x => x != '?') =
        t.takeWhile (fun x => !(x == '#' || x == '?')) := by
      intro t
      rw [takeWhile_and]
      congr 1
      funext x
      cases hx : x == '#' <;> cases hy : x == '?' <;> simp [bne, hx, hy]
    simp only [h, Option.isSome_some, if_true, h1, h2, h3, h4]
    rfl

end WikiGrabber
